import Mathlib

set_option maxRecDepth 100000

/-!
Verification development for the forge ingestion/search core
(`internal/services/ingest.go`).

The vector-store client (chroma) is an external collaborator; it is modelled
from the interface contract in the spec (get-or-create collection, get records
by equality filter or id set, add records, similarity query returning grouped
parallel arrays).  External effects of the Go standard library are modelled as
parameters: `crypto/md5` and `crypto/sha256` digests become function parameters
(only their determinism matters here), and `time.Now().Unix()` becomes a clock
function indexed by the call sequence (the source calls it once per chunk,
inside the metadata loop).  Store faults are injected through explicit
per-call-site `Option String` fields, mirroring which client calls can fail.
-/

namespace Forge

/-- Go `unicode.IsSpace` on the Latin-1 range (space, tab, newline, vertical
tab, form feed, carriage return, NEL, NBSP).  Only whitespace-delimited token
counts depend on this; higher Unicode space classes are not modelled. -/
def goIsSpace (c : Char) : Bool :=
  c = ' ' || c = '\t' || c = '\n' || c = '\x0b' || c = '\x0c' || c = '\r' ||
  c = '\x85' || c = '\xa0'

/-- Go `strings.Split` semantics for a character separator class: splitting a
string on every character satisfying `p`, keeping empty segments.  Splitting
the empty string yields one empty segment, exactly as in Go. -/
def splitBy (p : Char → Bool) : List Char → List (List Char)
  | [] => [[]]
  | c :: rest =>
    match splitBy p rest with
    | [] => [[]]
    | h :: t => if p c then [] :: h :: t else (c :: h) :: t

/-- Go `strings.Fields`: whitespace-separated fields, empty segments dropped. -/
def goFields (cs : List Char) : List (List Char) :=
  (splitBy goIsSpace cs).filter (fun w => !w.isEmpty)

/-- Loop state of `chunkText`: emitted chunks, the `strings.Builder`
accumulator `currentChunk`, and the running `tokenCount`. -/
structure ChunkSt where
  chunks : List (List Char)
  currentChunk : List Char
  tokenCount : Int
deriving DecidableEq

/-- One iteration of the `for _, line := range lines` loop of `chunkText`
(ingest.go lines 215-226): if adding the line's token count would exceed the
bound and the accumulator is non-empty, flush the accumulator and reset the
count; then always append `line + "\n"` and add the line's tokens. -/
def chunkStep (maxTokens : Int) (st : ChunkSt) (line : List Char) : ChunkSt :=
  let lineTokens : Int := (goFields line).length
  let st' :=
    if st.tokenCount + lineTokens > maxTokens then
      if 0 < st.currentChunk.length then
        ChunkSt.mk (st.chunks ++ [st.currentChunk]) [] 0
      else st
    else st
  ChunkSt.mk st'.chunks (st'.currentChunk ++ line ++ ['\n']) (st'.tokenCount + lineTokens)

/-- Character-level core of `chunkText` (ingest.go lines 209-233): split on
newlines, fold the accumulation loop, and flush a final non-empty
accumulator. -/
def chunkTextCh (cs : List Char) (maxTokens : Int) : List (List Char) :=
  let lines := splitBy (fun c => c = '\n') cs
  let st := lines.foldl (chunkStep maxTokens) (ChunkSt.mk [] [] 0)
  if 0 < st.currentChunk.length then st.chunks ++ [st.currentChunk] else st.chunks

/-- Go `chunkText(text string, maxTokens int) []string`. -/
def chunkText (text : String) (maxTokens : Int) : List String :=
  (chunkTextCh text.data maxTokens).map (fun cs => String.mk cs)

/-- Splitting never produces an empty list of segments. -/
theorem splitBy_ne_nil (p : Char → Bool) (cs : List Char) : splitBy p cs ≠ [] := by
  cases cs with
  | nil => simp [splitBy]
  | cons c rest =>
    simp only [splitBy]
    cases h : splitBy p rest with
    | nil => simp
    | cons hd tl =>
      by_cases hp : p c <;> simp [hp]

/-- Appending a newline to every segment of a newline split and concatenating
restores the input plus one trailing newline. -/
theorem join_splitBy_nl (cs : List Char) :
    ((splitBy (fun c => c = '\n') cs).map (fun l => l ++ ['\n'])).flatten = cs ++ ['\n'] := by
  induction cs with
  | nil => simp [splitBy]
  | cons c rest ih =>
    simp only [splitBy]
    cases h : splitBy (fun c => c = '\n') rest with
    | nil => exact absurd h (splitBy_ne_nil _ rest)
    | cons hd tl =>
      rw [h] at ih
      by_cases hc : c = '\n'
      · subst hc
        simpa using ih
      · simpa [hc] using ih

/-- One loop step preserves the reconstruction invariant: the flushed chunks
followed by the accumulator always spell out the processed lines, each with a
trailing newline. -/
theorem chunkStep_join (m : Int) (st : ChunkSt) (l : List Char) :
    ((chunkStep m st l).chunks).flatten ++ (chunkStep m st l).currentChunk
      = st.chunks.flatten ++ (st.currentChunk ++ (l ++ ['\n'])) := by
  simp only [chunkStep]
  by_cases h1 : st.tokenCount + ((goFields l).length : Int) > m
  · by_cases h2 : 0 < st.currentChunk.length <;> simp [h1, h2]
  · simp [h1]

/-- The whole accumulation loop preserves the reconstruction invariant. -/
theorem chunk_foldl_join (m : Int) (lines : List (List Char)) : ∀ st : ChunkSt,
    ((lines.foldl (chunkStep m) st).chunks).flatten
        ++ (lines.foldl (chunkStep m) st).currentChunk
      = st.chunks.flatten ++ (st.currentChunk ++ (lines.map (fun l => l ++ ['\n'])).flatten) := by
  induction lines with
  | nil => intro st; simp
  | cons l ls ih =>
    intro st
    rw [List.foldl_cons, ih (chunkStep m st l), ← List.append_assoc, chunkStep_join]
    simp

/-- Concatenating the character-level chunks restores the input text plus one
trailing newline. -/
theorem chunkTextCh_flatten (cs : List Char) (m : Int) :
    (chunkTextCh cs m).flatten = cs ++ ['\n'] := by
  simp only [chunkTextCh]
  have h := chunk_foldl_join m (splitBy (fun c => c = '\n') cs) (ChunkSt.mk [] [] 0)
  rw [join_splitBy_nl] at h
  by_cases hc :
      0 < ((splitBy (fun c => c = '\n') cs).foldl (chunkStep m) (ChunkSt.mk [] [] 0)).currentChunk.length
  · simpa [hc] using h
  · have hnil :
        ((splitBy (fun c => c = '\n') cs).foldl (chunkStep m) (ChunkSt.mk [] [] 0)).currentChunk = [] := by
      have := Nat.eq_zero_of_not_pos hc
      exact List.eq_nil_of_length_eq_zero this
    rw [hnil] at h
    simpa [hc, hnil] using h

/-- String append is concatenation of the underlying character lists. -/
theorem string_mk_append (a b : List Char) : String.mk a ++ String.mk b = String.mk (a ++ b) :=
  rfl

/-- Joining the `String.mk` images of a list of character lists is `String.mk`
of the flattened list. -/
theorem string_join_mk (L : List (List Char)) :
    String.join (L.map String.mk) = String.mk L.flatten := by
  have aux : ∀ (L : List (List Char)) (acc : List Char),
      (L.map String.mk).foldl (fun r s => r ++ s) (String.mk acc) = String.mk (acc ++ L.flatten) := by
    intro L
    induction L with
    | nil => intro acc; simp
    | cons a as ih =>
      intro acc
      rw [List.map_cons, List.foldl_cons, string_mk_append, ih]
      simp
  simpa using aux L []

/-- C4: for any input text and any positive chunk bound, concatenating the
chunks returned by `chunkText` in index order reproduces the original text up
to the trailing-newline normalization of the line split: the concatenation is
exactly the original text with one trailing newline appended, so no
information is lost beyond trailing-newline boundaries. -/
theorem chunkText_reconstruction (text : String) (maxTokens : Int)
    (hpos : 0 < maxTokens) :
    String.join (chunkText text maxTokens) = text ++ "\n" := by
  have _ := hpos
  simp only [chunkText]
  rw [string_join_mk, chunkTextCh_flatten]
  rfl

/-- Witness for the reconstruction theorem on a concrete two-line input. -/
theorem chunkText_reconstruction_witness :
    0 < (5 : Int) ∧ String.join (chunkText "a b\nc" 5) = "a b\nc" ++ "\n" :=
  ⟨by decide, chunkText_reconstruction "a b\nc" 5 (by decide)⟩

/-- Chunking any text (the empty text included) yields at least one chunk,
because every line is written to the accumulator with a trailing newline and
the final non-empty accumulator is always flushed. -/
theorem chunkText_ne_nil (text : String) (maxTokens : Int) :
    chunkText text maxTokens ≠ [] := by
  intro h
  have hch : chunkTextCh text.data maxTokens = [] := by
    have := congrArg List.length h
    simpa [chunkText] using List.eq_nil_of_length_eq_zero this
  have := chunkTextCh_flatten text.data maxTokens
  rw [hch] at this
  simp at this

/-- Counterexample to C5: on the empty string the chunker does not return zero
chunks (at the bound 512 used by ingestion — in fact at any bound): Go
`strings.Split("", "\n")` yields one empty line, the loop writes that line
plus a newline into the accumulator, and the final flush emits it. -/
theorem chunkText_empty_counterexample : ¬ (chunkText "" 512 = []) := by
  decide

/-- Amended C5: `chunkText` applied to the empty string returns exactly one
chunk consisting of a single newline character, for any chunk bound. -/
theorem chunkText_empty_amended (maxTokens : Int) : chunkText "" maxTokens = ["\n"] := by
  simp only [chunkText, chunkTextCh, splitBy, List.foldl_cons, List.foldl_nil]
  by_cases h : (0 : Int) + ((goFields []).length : Int) > maxTokens <;>
    simp [chunkStep, goFields, splitBy, h]

/-- An IEEE-754 double represented by its 64-bit pattern (Go `float64`).
Arithmetic on floats never occurs in this core; values are only carried. -/
structure Float64 where
  bits : UInt64
deriving DecidableEq, Repr

/-- A dynamically typed Go value, as held in a `map[string]interface{}`.
Only the types this core inspects are distinguished; `bool` stands for every
type the type switches do not handle. -/
inductive GoVal where
  | str (s : String)
  | int (n : Int)
  | int64 (n : Int)
  | float (f : Float64)
  | bool (b : Bool)
deriving DecidableEq, Repr

/-- A typed chroma metadata attribute value (`chroma.MetaAttribute`). -/
inductive MetaValue where
  | str (s : String)
  | int (n : Int)
  | float (f : Float64)
deriving DecidableEq, Repr

/-- Stored chroma metadata: an attribute list keyed by string. -/
abbrev ChromaMeta := List (String × MetaValue)

/-- First-match lookup in an attribute list (the lists built here have unique
keys, so this is exactly map lookup). -/
def metaLookup (m : ChromaMeta) (k : String) : Option MetaValue :=
  match m with
  | [] => none
  | (k', v) :: rest => if k' = k then some v else metaLookup rest k

/-- Go map assignment `m[k] = v`: replace the binding if the key is present,
append it otherwise. -/
def mapSet (m : List (String × GoVal)) (k : String) (v : GoVal) : List (String × GoVal) :=
  match m with
  | [] => [(k, v)]
  | (k', v') :: rest => if k' = k then (k, v) :: rest else (k', v') :: mapSet rest k v

/-- The metadata map composed for one chunk (ingest.go lines 69-83): the four
system keys, then every user key merged in under the `user_` prefix via Go map
assignment.  `ts` is the `time.Now().Unix()` reading for this chunk and `i`
the chunk index (a Go `int`). -/
def buildMetaMap (md5v fileName : String) (ts : Int) (i : Nat)
    (user : List (String × GoVal)) : List (String × GoVal) :=
  user.foldl (fun m kv => mapSet m ("user_" ++ kv.1) kv.2)
    [("file_md5", GoVal.str md5v), ("file_name", GoVal.str fileName),
     ("timestamp", GoVal.int64 ts), ("chunk_index", GoVal.int (Int.ofNat i))]

/-- The metadata conversion of `IngestFile` (ingest.go lines 89-104): the type
switch keeps `string`, `int64` and `float64` attributes and silently drops
every other value — note that a Go `int` (the type of `chunk_index`) matches
none of the three cases. -/
def toChromaMeta : List (String × GoVal) → ChromaMeta
  | [] => []
  | (k, GoVal.str s) :: rest => (k, MetaValue.str s) :: toChromaMeta rest
  | (k, GoVal.int64 n) :: rest => (k, MetaValue.int n) :: toChromaMeta rest
  | (k, GoVal.float f) :: rest => (k, MetaValue.float f) :: toChromaMeta rest
  | _ :: rest => toChromaMeta rest

/-- One record as durably stored by the vector store: id, document text, and
converted metadata. -/
structure StoredRecord where
  id : String
  doc : String
  meta : ChromaMeta
deriving DecidableEq, Repr

/-- A named collection's stored records (the store's durable state that this
core observes through get/add calls; modelled from the spec's collaborator
contract). -/
structure Collection where
  records : List StoredRecord
deriving DecidableEq, Repr

/-- Store `Get` with equality filter `file_md5 == md5v`, as issued by the
dedupe check (ingest.go line 40); modelled from the spec's collaborator
contract for get-by-equality-filter. -/
def dedupeGet (col : Collection) (md5v : String) : List StoredRecord :=
  col.records.filter (fun r => decide (metaLookup r.meta "file_md5" = some (MetaValue.str md5v)))

/-- The per-chunk id/metadata loop of `IngestFile` (ingest.go lines 63-86)
fused with the `Add` payload: chunk `i` gets id
`hex(sha256(filePath + chunk + itoa(i)))[:8]` (the digest-and-truncate step is
the `idHex` parameter), the chunk text as document, and its converted
metadata.  `clock i` is the `time.Now().Unix()` reading of iteration `i`. -/
def buildRecords (idHex : String → String) (md5v filePath : String)
    (clock : Nat → Int) (user : List (String × GoVal)) :
    Nat → List String → List StoredRecord
  | _, [] => []
  | i, chunk :: rest =>
    StoredRecord.mk (idHex (filePath ++ chunk ++ toString i)) chunk
        (toChromaMeta (buildMetaMap md5v filePath (clock i) i user))
      :: buildRecords idHex md5v filePath clock user (i + 1) rest

/-- The result record of `IngestFile` (`IngestResult`); a skipped ingestion
reports no chunk count (`chunks,omitempty`), modelled as 0. -/
structure IngestResult where
  status : String
  file : String
  chunks : Nat
deriving DecidableEq, Repr

/-- Fault injection for the three store calls `IngestFile` makes
(get-or-create collection, dedupe get, add). -/
structure IngestFaults where
  getOrCreateErr : Option String
  getErr : Option String
  addErr : Option String
deriving DecidableEq, Repr

/-- The fault-free store behavior. -/
def noIngestFaults : IngestFaults := IngestFaults.mk none none none

deriving instance DecidableEq for Except

/-- Go `(*IngestService).IngestFile` (ingest.go lines 30-127): get-or-create
the collection, hash the content with md5 (`md5Hex`), query for an existing
record with that `file_md5` and return `skipped` on a hit, otherwise chunk at
bound 512, build ids and metadata, and add all chunks in one batch.  Returns
the Go `(result, error)` pair together with the collection state after the
call; every error path leaves the state unchanged. -/
def ingestFile (md5Hex idHex : String → String) (clock : Nat → Int)
    (faults : IngestFaults) (col : Collection)
    (filePath content : String) (user : List (String × GoVal)) :
    Except String IngestResult × Collection :=
  match faults.getOrCreateErr with
  | some e => (Except.error ("failed to get/create collection: " ++ e), col)
  | none =>
    match faults.getErr with
    | some e => (Except.error e, col)
    | none =>
      if 0 < (dedupeGet col (md5Hex content)).length then
        (Except.ok (IngestResult.mk "skipped" filePath 0), col)
      else
        match faults.addErr with
        | some e => (Except.error e, col)
        | none =>
          (Except.ok (IngestResult.mk "ingested" filePath (chunkText content 512).length),
           Collection.mk (col.records ++
             buildRecords idHex (md5Hex content) filePath clock user 0 (chunkText content 512)))

/-- Unfolding the characters of a `user_`-prefixed key. -/
theorem user_append_data (u : String) :
    ("user_" ++ u).data = 'u' :: 's' :: 'e' :: 'r' :: '_' :: u.data :=
  rfl

/-- A string not starting with `u` is never a `user_`-prefixed key, so user
metadata can never collide with a system key. -/
theorem ne_user_append (s u : String) (h0 : s.data.head? ≠ some 'u') :
    s ≠ "user_" ++ u := by
  intro h
  apply h0
  rw [h, user_append_data]
  rfl

/-- Go map assignment of a fresh key walks past a binding with a different
key. -/
theorem mapSet_cons_ne (k' k : String) (v' v : GoVal) (m : List (String × GoVal))
    (h : k' ≠ k) : mapSet ((k', v') :: m) k v = (k', v') :: mapSet m k v := by
  simp [mapSet, h]

/-- The composed metadata map always starts with the four system bindings, in
order, whatever user metadata is merged in: every user key carries the
`user_` prefix and therefore never overwrites a system binding. -/
theorem buildMetaMap_shape (md5v fn : String) (ts : Int) (i : Nat)
    (user : List (String × GoVal)) :
    ∃ t, buildMetaMap md5v fn ts i user =
      ("file_md5", GoVal.str md5v) :: ("file_name", GoVal.str fn) ::
      ("timestamp", GoVal.int64 ts) :: ("chunk_index", GoVal.int (Int.ofNat i)) :: t := by
  suffices h : ∀ (user : List (String × GoVal)) (t : List (String × GoVal)),
      ∃ t', user.foldl (fun m kv => mapSet m ("user_" ++ kv.1) kv.2)
          (("file_md5", GoVal.str md5v) :: ("file_name", GoVal.str fn) ::
           ("timestamp", GoVal.int64 ts) :: ("chunk_index", GoVal.int (Int.ofNat i)) :: t)
        = ("file_md5", GoVal.str md5v) :: ("file_name", GoVal.str fn) ::
          ("timestamp", GoVal.int64 ts) :: ("chunk_index", GoVal.int (Int.ofNat i)) :: t' by
    exact h user []
  intro user
  induction user with
  | nil => intro t; exact ⟨t, rfl⟩
  | cons kv rest ih =>
    intro t
    rw [List.foldl_cons,
      mapSet_cons_ne _ _ _ _ _ (ne_user_append "file_md5" kv.1 (by decide)),
      mapSet_cons_ne _ _ _ _ _ (ne_user_append "file_name" kv.1 (by decide)),
      mapSet_cons_ne _ _ _ _ _ (ne_user_append "timestamp" kv.1 (by decide)),
      mapSet_cons_ne _ _ _ _ _ (ne_user_append "chunk_index" kv.1 (by decide))]
    exact ih _

/-- Each chunk's converted (stored) metadata resolves the three convertible
system keys: `file_md5` and `file_name` as strings and `timestamp` as the
int64 clock reading.  (`chunk_index` is dropped by the conversion; see the C2
theorem.) -/
theorem record_meta_lookup (md5v fn : String) (ts : Int) (i : Nat)
    (user : List (String × GoVal)) :
    metaLookup (toChromaMeta (buildMetaMap md5v fn ts i user)) "file_md5"
        = some (MetaValue.str md5v) ∧
    metaLookup (toChromaMeta (buildMetaMap md5v fn ts i user)) "file_name"
        = some (MetaValue.str fn) ∧
    metaLookup (toChromaMeta (buildMetaMap md5v fn ts i user)) "timestamp"
        = some (MetaValue.int ts) := by
  obtain ⟨t, ht⟩ := buildMetaMap_shape md5v fn ts i user
  rw [ht]
  simp [toChromaMeta, metaLookup]

/-- The batch built for `Add` has one record per chunk. -/
theorem buildRecords_length (idHex : String → String) (md5v fp : String)
    (clock : Nat → Int) (user : List (String × GoVal)) :
    ∀ (chunks : List String) (i : Nat),
      (buildRecords idHex md5v fp clock user i chunks).length = chunks.length := by
  intro chunks
  induction chunks with
  | nil => intro i; rfl
  | cons c rest ih => intro i; simp [buildRecords, ih]

/-- Every record in the batch carries the converted metadata of some chunk
index. -/
theorem buildRecords_meta (idHex : String → String) (md5v fp : String)
    (clock : Nat → Int) (user : List (String × GoVal)) :
    ∀ (chunks : List String) (i : Nat) (r : StoredRecord),
      r ∈ buildRecords idHex md5v fp clock user i chunks →
      ∃ j, r.meta = toChromaMeta (buildMetaMap md5v fp (clock j) j user) := by
  intro chunks
  induction chunks with
  | nil => intro i r hr; simp [buildRecords] at hr
  | cons c rest ih =>
    intro i r hr
    simp only [buildRecords] at hr
    rcases List.mem_cons.mp hr with hr | hr
    · exact ⟨i, by rw [hr]⟩
    · exact ih (i + 1) r hr

/-- Every record of a freshly built batch matches the dedupe equality filter
for its own content hash. -/
theorem buildRecords_pass_filter (idHex : String → String) (md5v fp : String)
    (clock : Nat → Int) (user : List (String × GoVal)) (chunks : List String)
    (i : Nat) (r : StoredRecord)
    (hr : r ∈ buildRecords idHex md5v fp clock user i chunks) :
    decide (metaLookup r.meta "file_md5" = some (MetaValue.str md5v)) = true := by
  obtain ⟨j, hj⟩ := buildRecords_meta idHex md5v fp clock user chunks i r hr
  rw [decide_eq_true_eq, hj]
  exact (record_meta_lookup md5v fp (clock j) j user).1

/-- After appending a batch whose records all carry the hash `md5v` to a
collection with no such record, the dedupe query returns exactly the new
batch. -/
theorem dedupeGet_append (col : Collection) (md5v : String)
    (newRecs : List StoredRecord)
    (hmiss : dedupeGet col md5v = [])
    (hall : ∀ r ∈ newRecs,
      decide (metaLookup r.meta "file_md5" = some (MetaValue.str md5v)) = true) :
    dedupeGet (Collection.mk (col.records ++ newRecs)) md5v = newRecs := by
  simp only [dedupeGet] at hmiss ⊢
  rw [List.filter_append, hmiss, List.nil_append]
  exact List.filter_eq_self.mpr hall

/-- C1: ingesting byte-identical content into the same collection twice (with
a healthy store and content not already present) yields `ingested` with the
chunk count on the first call, then `skipped` on the second call with the
store state unchanged — zero additional records, no mutation on the dedupe
hit.  The clock readings and user metadata of the two calls may differ
freely; only the content bytes matter. -/
theorem ingestFile_idempotent (md5Hex idHex : String → String)
    (clock1 clock2 : Nat → Int) (col : Collection) (filePath content : String)
    (user1 user2 : List (String × GoVal))
    (hmiss : dedupeGet col (md5Hex content) = []) :
    (ingestFile md5Hex idHex clock1 noIngestFaults col filePath content user1).1
        = Except.ok (IngestResult.mk "ingested" filePath (chunkText content 512).length) ∧
    (ingestFile md5Hex idHex clock2 noIngestFaults
        (ingestFile md5Hex idHex clock1 noIngestFaults col filePath content user1).2
        filePath content user2).1
        = Except.ok (IngestResult.mk "skipped" filePath 0) ∧
    (ingestFile md5Hex idHex clock2 noIngestFaults
        (ingestFile md5Hex idHex clock1 noIngestFaults col filePath content user1).2
        filePath content user2).2
      = (ingestFile md5Hex idHex clock1 noIngestFaults col filePath content user1).2 := by
  have h1 : ingestFile md5Hex idHex clock1 noIngestFaults col filePath content user1
      = (Except.ok (IngestResult.mk "ingested" filePath (chunkText content 512).length),
         Collection.mk (col.records ++
           buildRecords idHex (md5Hex content) filePath clock1 user1 0
             (chunkText content 512))) := by
    simp [ingestFile, noIngestFaults, hmiss]
  have hhit : 0 < (dedupeGet
      (Collection.mk (col.records ++
        buildRecords idHex (md5Hex content) filePath clock1 user1 0
          (chunkText content 512))) (md5Hex content)).length := by
    rw [dedupeGet_append col (md5Hex content) _ hmiss
      (fun r hr => buildRecords_pass_filter idHex (md5Hex content) filePath clock1 user1
        (chunkText content 512) 0 r hr)]
    rw [buildRecords_length]
    exact List.length_pos.mpr (chunkText_ne_nil content 512)
  have h2 : ingestFile md5Hex idHex clock2 noIngestFaults
      (Collection.mk (col.records ++
        buildRecords idHex (md5Hex content) filePath clock1 user1 0
          (chunkText content 512))) filePath content user2
      = (Except.ok (IngestResult.mk "skipped" filePath 0),
         Collection.mk (col.records ++
           buildRecords idHex (md5Hex content) filePath clock1 user1 0
             (chunkText content 512))) := by
    simp [ingestFile, noIngestFaults, hhit]
  rw [h1]
  exact ⟨rfl, by rw [h2], by rw [h2]⟩

/-- Witness for C1 on a concrete two-call run: an empty collection, the file
`a.txt` with content `hi`, stand-in digest functions, and differing clocks
and user metadata between the calls. -/
theorem ingestFile_idempotent_witness :
    dedupeGet (Collection.mk []) ((fun s => s) "hi") = [] ∧
    ((ingestFile (fun s => s) (fun s => s) (fun _ => 3) noIngestFaults
        (Collection.mk []) "a.txt" "hi" []).1
      = Except.ok (IngestResult.mk "ingested" "a.txt" (chunkText "hi" 512).length) ∧
    (ingestFile (fun s => s) (fun s => s) (fun _ => 9) noIngestFaults
        (ingestFile (fun s => s) (fun s => s) (fun _ => 3) noIngestFaults
          (Collection.mk []) "a.txt" "hi" []).2
        "a.txt" "hi" [("k", GoVal.str "v")]).1
      = Except.ok (IngestResult.mk "skipped" "a.txt" 0) ∧
    (ingestFile (fun s => s) (fun s => s) (fun _ => 9) noIngestFaults
        (ingestFile (fun s => s) (fun s => s) (fun _ => 3) noIngestFaults
          (Collection.mk []) "a.txt" "hi" []).2
        "a.txt" "hi" [("k", GoVal.str "v")]).2
      = (ingestFile (fun s => s) (fun s => s) (fun _ => 3) noIngestFaults
          (Collection.mk []) "a.txt" "hi" []).2) :=
  ⟨by decide,
   ingestFile_idempotent (fun s => s) (fun s => s) (fun _ => 3) (fun _ => 9)
     (Collection.mk []) "a.txt" "hi" [] [("k", GoVal.str "v")] (by decide)⟩

/-- C3 (amended): within one `IngestFile` call, the stored state is the old
records plus one record per chunk, and all of those records carry identical
`file_md5` and identical `file_name` values; the `timestamp` values are also
identical provided every `time.Now().Unix()` reading taken during the call's
metadata loop returns the same second (the source reads the clock once per
chunk, inside the loop). -/
theorem ingestFile_call_metadata_invariant (md5Hex idHex : String → String)
    (clock : Nat → Int) (col : Collection) (filePath content : String)
    (user : List (String × GoVal))
    (hmiss : dedupeGet col (md5Hex content) = []) :
    ((ingestFile md5Hex idHex clock noIngestFaults col filePath content user).2).records
      = col.records ++
          buildRecords idHex (md5Hex content) filePath clock user 0 (chunkText content 512) ∧
    (∀ r1 ∈ buildRecords idHex (md5Hex content) filePath clock user 0 (chunkText content 512),
     ∀ r2 ∈ buildRecords idHex (md5Hex content) filePath clock user 0 (chunkText content 512),
       metaLookup r1.meta "file_md5" = metaLookup r2.meta "file_md5" ∧
       metaLookup r1.meta "file_name" = metaLookup r2.meta "file_name") ∧
    (∀ t : Int, (∀ n, clock n = t) →
     ∀ r1 ∈ buildRecords idHex (md5Hex content) filePath clock user 0 (chunkText content 512),
     ∀ r2 ∈ buildRecords idHex (md5Hex content) filePath clock user 0 (chunkText content 512),
       metaLookup r1.meta "timestamp" = metaLookup r2.meta "timestamp") := by
  refine ⟨by simp [ingestFile, noIngestFaults, hmiss], ?_, ?_⟩
  · intro r1 h1 r2 h2
    obtain ⟨j1, hj1⟩ := buildRecords_meta idHex (md5Hex content) filePath clock user _ 0 r1 h1
    obtain ⟨j2, hj2⟩ := buildRecords_meta idHex (md5Hex content) filePath clock user _ 0 r2 h2
    rw [hj1, hj2]
    constructor
    · rw [(record_meta_lookup (md5Hex content) filePath (clock j1) j1 user).1,
        (record_meta_lookup (md5Hex content) filePath (clock j2) j2 user).1]
    · rw [(record_meta_lookup (md5Hex content) filePath (clock j1) j1 user).2.1,
        (record_meta_lookup (md5Hex content) filePath (clock j2) j2 user).2.1]
  · intro t ht r1 h1 r2 h2
    obtain ⟨j1, hj1⟩ := buildRecords_meta idHex (md5Hex content) filePath clock user _ 0 r1 h1
    obtain ⟨j2, hj2⟩ := buildRecords_meta idHex (md5Hex content) filePath clock user _ 0 r2 h2
    rw [hj1, hj2,
      (record_meta_lookup (md5Hex content) filePath (clock j1) j1 user).2.2,
      (record_meta_lookup (md5Hex content) filePath (clock j2) j2 user).2.2,
      ht j1, ht j2]

/-- Witness for the amended C3 on a concrete ingestion with a constant
clock. -/
theorem ingestFile_call_metadata_invariant_witness :
    dedupeGet (Collection.mk []) ((fun s => s) "x y") = [] ∧
    (((ingestFile (fun s => s) (fun s => s) (fun _ => 4) noIngestFaults
        (Collection.mk []) "b.txt" "x y" [("k", GoVal.str "v")]).2).records
      = (Collection.mk ([] : List StoredRecord)).records ++
          buildRecords (fun s => s) ((fun s => s) "x y") "b.txt" (fun _ => 4)
            [("k", GoVal.str "v")] 0 (chunkText "x y" 512) ∧
    (∀ r1 ∈ buildRecords (fun s => s) ((fun s => s) "x y") "b.txt" (fun _ => 4)
        [("k", GoVal.str "v")] 0 (chunkText "x y" 512),
     ∀ r2 ∈ buildRecords (fun s => s) ((fun s => s) "x y") "b.txt" (fun _ => 4)
        [("k", GoVal.str "v")] 0 (chunkText "x y" 512),
       metaLookup r1.meta "file_md5" = metaLookup r2.meta "file_md5" ∧
       metaLookup r1.meta "file_name" = metaLookup r2.meta "file_name") ∧
    (∀ t : Int, (∀ n : Nat, (fun _ => (4 : Int)) n = t) →
     ∀ r1 ∈ buildRecords (fun s => s) ((fun s => s) "x y") "b.txt" (fun _ => 4)
        [("k", GoVal.str "v")] 0 (chunkText "x y" 512),
     ∀ r2 ∈ buildRecords (fun s => s) ((fun s => s) "x y") "b.txt" (fun _ => 4)
        [("k", GoVal.str "v")] 0 (chunkText "x y" 512),
       metaLookup r1.meta "timestamp" = metaLookup r2.meta "timestamp")) :=
  ⟨by decide,
   ingestFile_call_metadata_invariant (fun s => s) (fun s => s) (fun _ => 4)
     (Collection.mk []) "b.txt" "x y" [("k", GoVal.str "v")] (by decide)⟩

/-- A 513-token text: one line of 512 single-character tokens followed by one
line of one token.  At the ingestion bound 512 it chunks into exactly two
chunks. -/
def longText : String := String.mk ((List.replicate 511 ['a', ' ']).flatten ++ ['a', '\n', 'a'])

/-- Counterexample to C3 as stated: a single `IngestFile` call on a two-chunk
text, with the per-chunk `time.Now().Unix()` readings straddling a second
boundary (reading `n` returns second `n`), stores records whose `timestamp`
metadata values differ. -/
theorem ingestFile_timestamp_counterexample :
    ¬ (∀ r1 ∈ ((ingestFile (fun _ => "H") (fun _ => "I") (fun n => (n : Int))
          noIngestFaults (Collection.mk []) "f.txt" longText []).2).records,
       ∀ r2 ∈ ((ingestFile (fun _ => "H") (fun _ => "I") (fun n => (n : Int))
          noIngestFaults (Collection.mk []) "f.txt" longText []).2).records,
         metaLookup r1.meta "timestamp" = metaLookup r2.meta "timestamp") := by
  decide

/-- C2 evaluated at a failing input: one fault-free ingestion of `hello` into
an empty collection stores exactly one record whose metadata resolves
`file_md5`, `file_name` and `timestamp` but NOT `chunk_index` — the Go type
switch converting metadata for storage has no `case int`, so the `int`-typed
`chunk_index` is silently dropped. -/
theorem ingestFile_chunk_index_dropped :
    ((ingestFile (fun _ => "H") (fun _ => "I") (fun _ => 7) noIngestFaults
        (Collection.mk []) "a.txt" "hello" []).2).records.map
      (fun r => (metaLookup r.meta "file_md5", metaLookup r.meta "file_name",
                 metaLookup r.meta "timestamp", metaLookup r.meta "chunk_index"))
    = [(some (MetaValue.str "H"), some (MetaValue.str "a.txt"),
        some (MetaValue.int 7), none)] := by
  decide

/-- A single-clause equality predicate accepted by the store
(`chroma.EqString` / `EqInt` / `EqFloat`).  Go narrows the `float64` value
with `float32(val)`; that numeric narrowing is outside this model, the value
is carried as given. -/
inductive WhereFilter where
  | eqString (k : String) (v : String)
  | eqInt (k : String) (v : Int)
  | eqFloat (k : String) (v : Float64)
deriving DecidableEq, Repr

/-- The filter type switch of `Search` (ingest.go lines 150-159): `string`,
`int` and `float64` values each overwrite the single where-clause
(last-key-wins over the map iteration order); every other value type leaves
it untouched.  `none` models the nil `chroma.WhereFilter`. -/
def searchWhereStep (acc : Option WhereFilter) (kv : String × GoVal) : Option WhereFilter :=
  match kv.2 with
  | GoVal.str s => some (WhereFilter.eqString kv.1 s)
  | GoVal.int n => some (WhereFilter.eqInt kv.1 n)
  | GoVal.float f => some (WhereFilter.eqFloat kv.1 f)
  | _ => acc

/-- The whole `for k, v := range filter` loop of `Search`, starting from the
nil where clause. -/
def searchWhere (filter : List (String × GoVal)) : Option WhereFilter :=
  filter.foldl searchWhereStep none

/-- Whether the `Search` filter type switch has a case for this value type. -/
def searchValSupported : GoVal → Bool
  | GoVal.str _ => true
  | GoVal.int _ => true
  | GoVal.float _ => true
  | _ => false

/-- The query issued by `Search` (ingest.go lines 143-161): the one query
text, the result limit, and the optional where clause.  A nil where clause
(appended when a non-empty filter map contains only unsupported value types)
and an absent where option both reach the store as an unfiltered query, per
the collaborator contract. -/
structure QuerySpec where
  queryTexts : List String
  nResults : Int
  whereClause : Option WhereFilter
deriving DecidableEq, Repr

/-- Builds the query options of `Search`: `WithWhereQuery` is only appended
when the filter map is non-empty (ingest.go line 148). -/
def buildQuerySpec (query : String) (k : Int) (filter : List (String × GoVal)) : QuerySpec :=
  QuerySpec.mk [query] k (if 0 < filter.length then searchWhere filter else none)

/-- The store's response to a similarity query: one group of parallel arrays
(ids, documents, metadata, distances) per submitted query text; modelled from
the spec's collaborator contract.  The distance type is kept abstract: the
source copies each `float32` distance with an identity `float32(...)`
conversion, so only verbatim copying is observable. -/
structure QueryResult (D : Type) where
  idGroups : List (List String)
  docGroups : List (List String)
  metaGroups : List (List (Option ChromaMeta))
  distGroups : List (List D)
deriving DecidableEq, Repr

/-- A value stored in the synthesized per-result metadata map of `Search`
(Go `map[string]interface{}` holding strings and one distance). -/
inductive RVal (D : Type) where
  | str (s : String)
  | dist (d : D)
deriving DecidableEq, Repr

/-- First-match lookup in a synthesized result-metadata map. -/
def rvalLookup {D : Type} (m : List (String × RVal D)) (k : String) : Option (RVal D) :=
  match m with
  | [] => none
  | (k', v) :: rest => if k' = k then some v else rvalLookup rest k

/-- Go `SearchResult`: id, document text, a metadata map, and the distance. -/
structure SearchResult (D : Type) where
  id : String
  document : String
  metadata : List (String × RVal D)
  distance : D
deriving DecidableEq, Repr

/-- The flattening loop of `Search` (ingest.go lines 169-204): read the first
group only, and for each document build a `SearchResult` from the parallel
ids and distances arrays.  The metadata map is synthesized: when the metadata
array has a non-nil entry at the index, it holds the result's own id and
document, plus the distance when the distances array is long enough — the
stored chunk metadata itself is only nil-checked, never copied.  Out-of-range
parallel-array indexing (a Go panic) is modelled by defaults; theorems about
this function assume the store's parallel-array contract. -/
def flattenQuery {D : Type} [Inhabited D] (qr : QueryResult D) : List (SearchResult D) :=
  if 0 < qr.docGroups.length ∧ 0 < (qr.docGroups.getD 0 []).length then
    let docs := qr.docGroups.getD 0 []
    let ids := qr.idGroups.getD 0 []
    let metadatas := qr.metaGroups.getD 0 []
    let distances := qr.distGroups.getD 0 []
    (List.range docs.length).map (fun i =>
      let doc := docs.getD i ""
      let metadataMap : List (String × RVal D) :=
        if i < metadatas.length ∧ (metadatas.getD i none).isSome then
          [("id", RVal.str (ids.getD i "")), ("document", RVal.str doc)] ++
          (if i < distances.length then [("distance", RVal.dist (distances.getD i default))] else [])
        else []
      SearchResult.mk (ids.getD i "") doc metadataMap (distances.getD i default))
  else []

/-- Fault injection for the two store calls `Search` makes (get collection —
which must already exist — and the similarity query). -/
structure SearchFaults where
  getCollectionErr : Option String
  queryErr : Option String
deriving DecidableEq, Repr

/-- The fault-free store behavior for `Search`. -/
def noSearchFaults : SearchFaults := SearchFaults.mk none none

/-- Go `(*IngestService).Search` (ingest.go lines 136-207): get the existing
collection, build the query options, issue the similarity query (its response
`qr` is the store's — similarity itself is opaque), and flatten the first
group.  Errors of both store calls are propagated. -/
def search {D : Type} [Inhabited D] (faults : SearchFaults) (qr : QueryResult D)
    (collectionName query : String) (k : Int) (filter : List (String × GoVal)) :
    Except String (List (SearchResult D)) :=
  match faults.getCollectionErr with
  | some e => Except.error ("failed to get collection '" ++ collectionName ++ "': " ++ e)
  | none =>
    let _qspec := buildQuerySpec query k filter
    match faults.queryErr with
    | some e => Except.error e
    | none => Except.ok (flattenQuery qr)

/-- An unsupported filter value leaves the where clause untouched. -/
theorem searchWhereStep_unsupported (acc : Option WhereFilter) (kv : String × GoVal)
    (h : searchValSupported kv.2 = false) : searchWhereStep acc kv = acc := by
  obtain ⟨k, v⟩ := kv
  cases v <;> simp_all [searchValSupported, searchWhereStep]

/-- A filter map holding only unsupported value types translates to the nil
where clause. -/
theorem searchWhere_unsupported (filter : List (String × GoVal))
    (h : ∀ kv ∈ filter, searchValSupported kv.2 = false) :
    searchWhere filter = none := by
  suffices aux : ∀ (l : List (String × GoVal)),
      (∀ kv ∈ l, searchValSupported kv.2 = false) →
      ∀ acc, l.foldl searchWhereStep acc = acc by
    exact aux filter h none
  intro l
  induction l with
  | nil => intro _ acc; rfl
  | cons kv rest ih =>
    intro hall acc
    rw [List.foldl_cons, searchWhereStep_unsupported acc kv (hall kv (by simp))]
    exact ih (fun kv' h' => hall kv' (by simp [h'])) acc

/-- C6: the filter translation of `Search` supports only string, integer and
floating-point values.  A filter map (empty, or non-empty with every value of
any other type) produces no equality predicate: the query spec built for the
store carries no where clause, so the similarity query is issued
unfiltered. -/
theorem search_filter_unsupported_unfiltered (query : String) (k : Int)
    (filter : List (String × GoVal))
    (h : ∀ kv ∈ filter, searchValSupported kv.2 = false) :
    (buildQuerySpec query k filter).whereClause = none := by
  simp only [buildQuerySpec]
  by_cases hlen : 0 < filter.length
  · simp [hlen, searchWhere_unsupported filter h]
  · simp [hlen]

/-- Witness for C6: a non-empty filter holding a boolean and an `int64` value
(neither has a case in the type switch) yields an unfiltered query. -/
theorem search_filter_unsupported_unfiltered_witness :
    (∀ kv ∈ [("flag", GoVal.bool true), ("n", GoVal.int64 3)],
      searchValSupported kv.2 = false) ∧
    (buildQuerySpec "q" 5 [("flag", GoVal.bool true), ("n", GoVal.int64 3)]).whereClause
      = none :=
  ⟨by decide,
   search_filter_unsupported_unfiltered "q" 5
     [("flag", GoVal.bool true), ("n", GoVal.int64 3)] (by decide)⟩

/-- Indexing the mapped range list picks out the function value. -/
theorem range_map_getD {α : Type} (n i : Nat) (f : Nat → α) (d : α) (h : i < n) :
    ((List.range n).map f).getD i d = f i := by
  rw [List.getD_eq_getElem?_getD, List.getElem?_map, List.getElem?_range h]
  rfl

/-- C7: with a healthy store, `Search` returns the flattened first group
without error; when the response's first group is non-empty the flattening
yields exactly one `SearchResult` per document of that group, preserving the
group's order (ids and documents position by position) and each distance
value; and when the first group is empty the result is the empty sequence,
still without error.  The hypotheses record the store's parallel-array
contract for the first group. -/
theorem search_flatten_first_group {D : Type} [Inhabited D] [DecidableEq D]
    (qr : QueryResult D) (collectionName query : String) (k : Int)
    (filter : List (String × GoVal))
    (hids : (qr.idGroups.getD 0 []).length = (qr.docGroups.getD 0 []).length)
    (hmeta : (qr.metaGroups.getD 0 []).length = (qr.docGroups.getD 0 []).length)
    (hdist : (qr.distGroups.getD 0 []).length = (qr.docGroups.getD 0 []).length) :
    search noSearchFaults qr collectionName query k filter = Except.ok (flattenQuery qr) ∧
    (0 < qr.docGroups.length → 0 < (qr.docGroups.getD 0 []).length →
      (flattenQuery qr).length = (qr.docGroups.getD 0 []).length ∧
      ∀ i, i < (qr.docGroups.getD 0 []).length →
        ((flattenQuery qr).getD i (SearchResult.mk "" "" [] default)).id
            = (qr.idGroups.getD 0 []).getD i "" ∧
        ((flattenQuery qr).getD i (SearchResult.mk "" "" [] default)).document
            = (qr.docGroups.getD 0 []).getD i "" ∧
        ((flattenQuery qr).getD i (SearchResult.mk "" "" [] default)).distance
            = (qr.distGroups.getD 0 []).getD i default) ∧
    ((qr.docGroups.getD 0 []).length = 0 → flattenQuery qr = []) := by
  have _ := hids
  have _ := hmeta
  have _ := hdist
  refine ⟨rfl, ?_, ?_⟩
  · intro h1 h2
    have hflat : flattenQuery qr = (List.range (qr.docGroups.getD 0 []).length).map (fun i =>
        SearchResult.mk ((qr.idGroups.getD 0 []).getD i "") ((qr.docGroups.getD 0 []).getD i "")
          (if i < (qr.metaGroups.getD 0 []).length ∧ ((qr.metaGroups.getD 0 []).getD i none).isSome then
            [("id", RVal.str ((qr.idGroups.getD 0 []).getD i "")),
             ("document", RVal.str ((qr.docGroups.getD 0 []).getD i ""))] ++
            (if i < (qr.distGroups.getD 0 []).length then
              [("distance", RVal.dist ((qr.distGroups.getD 0 []).getD i default))] else [])
          else [])
          ((qr.distGroups.getD 0 []).getD i default)) := by
      simp only [flattenQuery, h1, h2, and_self, if_true]
    refine ⟨by rw [hflat]; simp, ?_⟩
    intro i hi
    rw [hflat, range_map_getD _ _ _ _ hi]
    exact ⟨rfl, rfl, rfl⟩
  · intro h0
    have hneg : ¬ (0 < qr.docGroups.length ∧ 0 < (qr.docGroups.getD 0 []).length) := by
      rintro ⟨_, hpos⟩
      omega
    unfold flattenQuery
    rw [if_neg hneg]

/-- Concrete store response for the C7 witness: one group of two parallel
entries, the second with a nil metadata record. -/
def qrWitness : QueryResult Nat :=
  QueryResult.mk [["i1", "i2"]] [["d1", "d2"]]
    [[some [("m", MetaValue.str "v")], none]] [[3, 4]]

/-- Witness for C7 on the concrete two-document response. -/
theorem search_flatten_first_group_witness :
    ((qrWitness.idGroups.getD 0 []).length = (qrWitness.docGroups.getD 0 []).length ∧
     (qrWitness.metaGroups.getD 0 []).length = (qrWitness.docGroups.getD 0 []).length ∧
     (qrWitness.distGroups.getD 0 []).length = (qrWitness.docGroups.getD 0 []).length) ∧
    (search noSearchFaults qrWitness "c" "q" 5 [] = Except.ok (flattenQuery qrWitness) ∧
    (0 < qrWitness.docGroups.length → 0 < (qrWitness.docGroups.getD 0 []).length →
      (flattenQuery qrWitness).length = (qrWitness.docGroups.getD 0 []).length ∧
      ∀ i, i < (qrWitness.docGroups.getD 0 []).length →
        ((flattenQuery qrWitness).getD i (SearchResult.mk "" "" [] default)).id
            = (qrWitness.idGroups.getD 0 []).getD i "" ∧
        ((flattenQuery qrWitness).getD i (SearchResult.mk "" "" [] default)).document
            = (qrWitness.docGroups.getD 0 []).getD i "" ∧
        ((flattenQuery qrWitness).getD i (SearchResult.mk "" "" [] default)).distance
            = (qrWitness.distGroups.getD 0 []).getD i default) ∧
    ((qrWitness.docGroups.getD 0 []).length = 0 → flattenQuery qrWitness = [])) :=
  ⟨⟨by decide, by decide, by decide⟩,
   search_flatten_first_group qrWitness "c" "q" 5 [] (by decide) (by decide) (by decide)⟩

/-- C8 (amended): each returned `SearchResult` does NOT carry the stored
chunk's metadata record; its metadata map is synthesized by the flattening
loop.  When the metadata parallel array has a non-nil entry at the result's
index, the map holds exactly the result's own id, document text and distance
(the stored record is only nil-checked); when the entry is nil or missing,
the map is empty. -/
theorem flattenQuery_metadata_synthesized {D : Type} [Inhabited D] [DecidableEq D]
    (qr : QueryResult D)
    (hmeta : (qr.metaGroups.getD 0 []).length = (qr.docGroups.getD 0 []).length)
    (hdist : (qr.distGroups.getD 0 []).length = (qr.docGroups.getD 0 []).length)
    (i : Nat) (hi : i < (qr.docGroups.getD 0 []).length)
    (h0 : 0 < qr.docGroups.length) :
    ((flattenQuery qr).getD i (SearchResult.mk "" "" [] default)).metadata
      = (if ((qr.metaGroups.getD 0 []).getD i none).isSome then
          [("id", RVal.str ((qr.idGroups.getD 0 []).getD i "")),
           ("document", RVal.str ((qr.docGroups.getD 0 []).getD i "")),
           ("distance", RVal.dist ((qr.distGroups.getD 0 []).getD i default))]
        else []) := by
  have h2 : 0 < (qr.docGroups.getD 0 []).length := Nat.lt_of_le_of_lt (Nat.zero_le i) hi
  have hflat : flattenQuery qr = (List.range (qr.docGroups.getD 0 []).length).map (fun i =>
      SearchResult.mk ((qr.idGroups.getD 0 []).getD i "") ((qr.docGroups.getD 0 []).getD i "")
        (if i < (qr.metaGroups.getD 0 []).length ∧ ((qr.metaGroups.getD 0 []).getD i none).isSome then
          [("id", RVal.str ((qr.idGroups.getD 0 []).getD i "")),
           ("document", RVal.str ((qr.docGroups.getD 0 []).getD i ""))] ++
          (if i < (qr.distGroups.getD 0 []).length then
            [("distance", RVal.dist ((qr.distGroups.getD 0 []).getD i default))] else [])
        else [])
        ((qr.distGroups.getD 0 []).getD i default)) := by
    simp only [flattenQuery, h0, h2, and_self, if_true]
  rw [hflat, range_map_getD _ _ _ _ hi]
  have himeta : i < (qr.metaGroups.getD 0 []).length := by omega
  have hidist : i < (qr.distGroups.getD 0 []).length := by omega
  show (if i < (qr.metaGroups.getD 0 []).length ∧ ((qr.metaGroups.getD 0 []).getD i none).isSome then
          [("id", RVal.str ((qr.idGroups.getD 0 []).getD i "")),
           ("document", RVal.str ((qr.docGroups.getD 0 []).getD i ""))] ++
          (if i < (qr.distGroups.getD 0 []).length then
            [("distance", RVal.dist ((qr.distGroups.getD 0 []).getD i default))] else [])
        else []) = _
  by_cases hs : ((qr.metaGroups.getD 0 []).getD i none).isSome
  · rw [if_pos (And.intro himeta hs), if_pos hidist, if_pos hs]
    rfl
  · rw [if_neg (fun hand => hs hand.2), if_neg hs]

/-- Witness for the amended C8 on the concrete two-document response: index 0
has a non-nil metadata entry (synthesized three-entry map), index 1 a nil one
(empty map). -/
theorem flattenQuery_metadata_synthesized_witness :
    ((qrWitness.metaGroups.getD 0 []).length = (qrWitness.docGroups.getD 0 []).length ∧
     (qrWitness.distGroups.getD 0 []).length = (qrWitness.docGroups.getD 0 []).length ∧
     0 < (qrWitness.docGroups.getD 0 []).length ∧ 0 < qrWitness.docGroups.length) ∧
    ((flattenQuery qrWitness).getD 0 (SearchResult.mk "" "" [] default)).metadata
      = (if ((qrWitness.metaGroups.getD 0 []).getD 0 none).isSome then
          [("id", RVal.str ((qrWitness.idGroups.getD 0 []).getD 0 "")),
           ("document", RVal.str ((qrWitness.docGroups.getD 0 []).getD 0 "")),
           ("distance", RVal.dist ((qrWitness.distGroups.getD 0 []).getD 0 default))]
        else []) :=
  ⟨⟨by decide, by decide, by decide, by decide⟩,
   flattenQuery_metadata_synthesized qrWitness (by decide) (by decide) 0 (by decide) (by decide)⟩

/-- Concrete store response refuting C8 as stated: the stored chunk's
metadata record resolves `file_md5`, yet the returned result's metadata map
does not. -/
def qrStoredMeta : QueryResult Nat :=
  QueryResult.mk [["id1"]] [["doc1"]] [[some [("file_md5", MetaValue.str "m")]]] [[7]]

/-- Counterexample to C8: for this response the stored metadata record of the
matching chunk contains `file_md5`, but the `SearchResult` produced by the
flattening does not carry that record — its metadata map has no `file_md5`
entry (it is the synthesized id/document/distance map). -/
theorem search_metadata_counterexample :
    metaLookup (((qrStoredMeta.metaGroups.getD 0 []).getD 0 none).getD []) "file_md5"
        = some (MetaValue.str "m") ∧
    rvalLookup (((flattenQuery qrStoredMeta).getD 0 (SearchResult.mk "" "" [] 0)).metadata)
        "file_md5" = none ∧
    ((flattenQuery qrStoredMeta).getD 0 (SearchResult.mk "" "" [] 0)).metadata
      = [("id", RVal.str "id1"), ("document", RVal.str "doc1"), ("distance", RVal.dist 7)] := by
  refine ⟨by decide, by decide, by decide⟩

/-- The metadata conversion of `CreateDocDirect` (ingest.go lines 293-305):
unlike the ingestion conversion, its type switch also has a `case int`
(widened to int64); `string`, `int64` and `float64` are kept as well, all
other value types dropped. -/
def toChromaMetaDirect : List (String × GoVal) → ChromaMeta
  | [] => []
  | (k, GoVal.str s) :: rest => (k, MetaValue.str s) :: toChromaMetaDirect rest
  | (k, GoVal.int n) :: rest => (k, MetaValue.int n) :: toChromaMetaDirect rest
  | (k, GoVal.int64 n) :: rest => (k, MetaValue.int n) :: toChromaMetaDirect rest
  | (k, GoVal.float f) :: rest => (k, MetaValue.float f) :: toChromaMetaDirect rest
  | _ :: rest => toChromaMetaDirect rest

/-- Fault injection for the three store calls `CreateDocDirect` makes
(get-or-create collection, get-by-id conflict check, add). -/
structure DirectFaults where
  getOrCreateErr : Option String
  getErr : Option String
  addErr : Option String
deriving DecidableEq, Repr

/-- The fault-free store behavior for `CreateDocDirect`. -/
def noDirectFaults : DirectFaults := DirectFaults.mk none none none

/-- Store `Get` by id set, as issued by the conflict check (ingest.go line
287); modelled from the spec's collaborator contract. -/
def getByID (col : Collection) (id : String) : List StoredRecord :=
  col.records.filter (fun r => decide (r.id = id))

/-- Go `(*IngestService).CreateDocDirect` (ingest.go lines 271-317): reject
empty text, get-or-create the collection, derive the id from the text when
none is supplied, and — only when an explicit id is supplied — check it for a
conflict; then add the single record.  Note the conflict check's faithful
quirk: the Go code tests `err == nil && len(got.GetIDs()) > 0`, so when the
conflict-check `Get` fails its error is discarded and execution falls through
to the `Add`. -/
def createDocDirect (shaHex : String → String) (faults : DirectFaults)
    (col : Collection) (collectionName id text : String)
    (metadata : List (String × GoVal)) : Except String String × Collection :=
  if text = "" then (Except.error "text is required", col)
  else
    match faults.getOrCreateErr with
    | some e => (Except.error ("get/create collection: " ++ e), col)
    | none =>
      let docID := if id = "" then shaHex text else id
      let conflict :=
        if id ≠ "" then
          match faults.getErr with
          | some _ => false
          | none => 0 < (getByID col id).length
        else false
      if conflict then (Except.error "conflict: id already exists", col)
      else
        match faults.addErr with
        | some e => (Except.error ("add document: " ++ e), col)
        | none =>
          (Except.ok docID,
           Collection.mk (col.records ++
             [StoredRecord.mk docID text (toChromaMetaDirect metadata)]))

/-- C9: direct insertion with an explicit id into a collection that already
contains a record with that id (store healthy on the lookup) fails with the
conflict error and performs no mutation — the collection state is returned
unchanged, nothing added or replaced. -/
theorem createDocDirect_conflict (shaHex : String → String) (col : Collection)
    (collectionName id text : String) (metadata : List (String × GoVal))
    (hid : id ≠ "") (htext : text ≠ "")
    (hexists : 0 < (getByID col id).length) :
    createDocDirect shaHex noDirectFaults col collectionName id text metadata
      = (Except.error "conflict: id already exists", col) := by
  simp [createDocDirect, noDirectFaults, hid, htext, hexists]

/-- Witness for C9: inserting id `doc-1` into a collection already holding
`doc-1`. -/
theorem createDocDirect_conflict_witness :
    (("doc-1" : String) ≠ "" ∧ ("hello" : String) ≠ "" ∧
     0 < (getByID (Collection.mk [StoredRecord.mk "doc-1" "old" []]) "doc-1").length) ∧
    createDocDirect (fun s => s) noDirectFaults
        (Collection.mk [StoredRecord.mk "doc-1" "old" []]) "c" "doc-1" "hello" []
      = (Except.error "conflict: id already exists",
         Collection.mk [StoredRecord.mk "doc-1" "old" []]) :=
  ⟨⟨by decide, by decide, by decide⟩,
   createDocDirect_conflict (fun s => s)
     (Collection.mk [StoredRecord.mk "doc-1" "old" []]) "c" "doc-1" "hello" []
     (by decide) (by decide) (by decide)⟩

/-- C10 (amended): every error returned by a vector-store call is propagated
to the caller — a successful result implies no executed store call failed —
for all of `IngestFile` (where a `skipped` success legitimately precedes, and
therefore never executes, the add call), for `Search`, and for
`CreateDocDirect`'s get-or-create and add calls.  The one exception, beyond
the deliberate dedupe-hit `skipped`, is `CreateDocDirect`'s conflict-check
get: its error is silently discarded (`err == nil && ...`), so a successful
direct insert does NOT imply that call succeeded. -/
theorem storeErrors_propagated_amended {D : Type} [Inhabited D] [DecidableEq D]
    (md5Hex idHex shaHex : String → String) (clock : Nat → Int)
    (ifaults : IngestFaults) (sfaults : SearchFaults) (dfaults : DirectFaults)
    (col1 col2 : Collection) (qr : QueryResult D)
    (filePath content : String) (user : List (String × GoVal))
    (cn1 q : String) (k : Int) (filter : List (String × GoVal))
    (cn2 id2 text2 : String) (meta2 : List (String × GoVal)) :
    (∀ (r : IngestResult) (st' : Collection),
      ingestFile md5Hex idHex clock ifaults col1 filePath content user
          = (Except.ok r, st') →
      ifaults.getOrCreateErr = none ∧ ifaults.getErr = none ∧
      (r.status = "skipped" ∨ ifaults.addErr = none)) ∧
    (∀ rs : List (SearchResult D),
      search sfaults qr cn1 q k filter = Except.ok rs →
      sfaults.getCollectionErr = none ∧ sfaults.queryErr = none) ∧
    (∀ (did : String) (st' : Collection),
      createDocDirect shaHex dfaults col2 cn2 id2 text2 meta2
          = (Except.ok did, st') →
      dfaults.getOrCreateErr = none ∧ dfaults.addErr = none) := by
  refine ⟨?_, ?_, ?_⟩
  · intro r st' h
    obtain ⟨g, ge, ae⟩ := ifaults
    cases g with
    | some e => simp [ingestFile] at h
    | none =>
      cases ge with
      | some e => simp [ingestFile] at h
      | none =>
        by_cases hhit : 0 < (dedupeGet col1 (md5Hex content)).length
        · have heq : ingestFile md5Hex idHex clock (IngestFaults.mk none none ae)
              col1 filePath content user
              = (Except.ok (IngestResult.mk "skipped" filePath 0), col1) := by
            simp [ingestFile, hhit]
          rw [heq] at h
          have hr : IngestResult.mk "skipped" filePath 0 = r :=
            Except.ok.inj (congrArg Prod.fst h)
          exact ⟨rfl, rfl, Or.inl (by rw [← hr])⟩
        · cases ae with
          | some e => simp [ingestFile, hhit] at h
          | none => exact ⟨rfl, rfl, Or.inr rfl⟩
  · intro rs h
    obtain ⟨g, qe⟩ := sfaults
    cases g with
    | some e => simp [search] at h
    | none =>
      cases qe with
      | some e => simp [search] at h
      | none => exact ⟨rfl, rfl⟩
  · intro did st' h
    obtain ⟨g, ge, ae⟩ := dfaults
    by_cases ht : text2 = ""
    · simp [createDocDirect, ht] at h
    · cases g with
      | some e => simp [createDocDirect, ht] at h
      | none =>
        cases ae with
        | some e =>
          simp only [createDocDirect, ht, if_false] at h
          split at h <;> (try split at h) <;> simp_all
        | none => exact ⟨rfl, rfl⟩

/-- Witness for the amended C10: fault-free concrete runs of all three
operations succeed, and the theorem applied to them certifies that no
executed store call failed. -/
theorem storeErrors_propagated_witness :
    (noIngestFaults.getOrCreateErr = none ∧ noIngestFaults.getErr = none ∧
      ((IngestResult.mk "ingested" "a.txt" 1).status = "skipped" ∨
        noIngestFaults.addErr = none)) ∧
    (noSearchFaults.getCollectionErr = none ∧ noSearchFaults.queryErr = none) ∧
    (noDirectFaults.getOrCreateErr = none ∧ noDirectFaults.addErr = none) := by
  have h := storeErrors_propagated_amended (fun s => s) (fun s => s) (fun s => s)
    (fun _ => 0) noIngestFaults noSearchFaults noDirectFaults
    (Collection.mk []) (Collection.mk [])
    (QueryResult.mk [] [] [] [] : QueryResult Nat)
    "a.txt" "x" [] "c" "q" 5 [] "c2" "" "hello" []
  refine ⟨?_, ?_, ?_⟩
  · exact h.1 (IngestResult.mk "ingested" "a.txt" 1)
      (Collection.mk [StoredRecord.mk "a.txtx\n0" "x\n"
        [("file_md5", MetaValue.str "x"), ("file_name", MetaValue.str "a.txt"),
         ("timestamp", MetaValue.int 0)]])
      (by decide)
  · exact h.2.1 [] (by decide)
  · exact h.2.2 "hello" (Collection.mk [StoredRecord.mk "hello" "hello" []]) (by decide)

/-- Counterexample to C10 as stated: with the conflict-check store `Get`
failing (and the target id even already present), `CreateDocDirect` neither
propagates that store error nor aborts — it returns success and inserts a
duplicate of id `doc-1`, so a store-call error was downgraded into a
successful result outside the dedupe-hit exception. -/
theorem storeError_swallowed_counterexample :
    (createDocDirect (fun s => s) (DirectFaults.mk none (some "store get failed") none)
        (Collection.mk [StoredRecord.mk "doc-1" "old" []]) "c" "doc-1" "hello" []).1
      = Except.ok "doc-1" ∧
    ((createDocDirect (fun s => s) (DirectFaults.mk none (some "store get failed") none)
        (Collection.mk [StoredRecord.mk "doc-1" "old" []]) "c" "doc-1" "hello" []).2).records
      = [StoredRecord.mk "doc-1" "old" [], StoredRecord.mk "doc-1" "hello" []] := by
  exact ⟨by decide, by decide⟩
